import Mathlib

/-!
Verification of the tgtg scanner core

Shallow embedding of the tgtg marketplace scanner (Python) into Lean 4,
covering the scanner's edge-triggered item tracker, the favorites paging
loop, the TGTG client's authentication state machine, the notifier fan-out,
and the webhook template rendering.

Conventions of the embedding:
* Python dict state (`Scanner.amounts`) is modelled as `String → Option Nat`.
* HTTP responses are modelled as inductive response values supplied to the
  functions as oracles (one response consumed per request issued).
* Raising an exception is modelled with `Except`; functions whose Python
  counterparts may block on an exhausted response trace return `Option`.
* `datetime.datetime.now()` is modelled as a `Nat` of seconds passed in by
  the caller; `timedelta.seconds` is `(now - last) % 86400` (the seconds
  component of a day-normalised timedelta, faithful to CPython for
  `now ≥ last`).
-/

namespace Tgtg

/-! ## Item (src/tgtg_scanner/models/item.py)

The `Item` value object.  The float `price` and the datetime-derived
`pickupdate` property are abstracted to the strings produced by Python's
`str()` on them, which is the only way the scanner core consumes them. -/

structure Item where
  item_id : String
  items_available : Nat
  display_name : String
  priceStr : String
  currency : String
  pickupdateStr : String
  deriving Repr, DecidableEq

/-- Source: `Item.ATTRS` from item.py: the attribute names available to templates. -/
def ATTRS : List String :=
  ["item_id", "items_available", "display_name", "price", "currency", "pickupdate"]

/-! ## Scanner state tracker (src/tgtg_scanner/scanner.py)

`Scanner.amounts` is a dict from item id to last observed count. -/

/-- Source: `self.amounts[id] = v` on the tracker dict. -/
def updateAmounts (amounts : String → Option Nat) (id : String) (v : Nat) :
    String → Option Nat :=
  fun k => if k = id then some v else amounts k

/-- Which of the operations inside `_check_item`'s `try` block raise.
`sendRaises`: `self._send_messages(item)` raises;
`notifMetricRaises`: `self.metrics.send_notifications...inc()` raises;
`countMetricRaises`: `self.metrics.item_count...set(...)` raises. -/
structure CheckFlags where
  sendRaises : Bool
  notifMetricRaises : Bool
  countMetricRaises : Bool
  deriving Repr, DecidableEq

/-- Outcome of one `_check_item` call: the updated tracker dict and whether
`_send_messages` was invoked for this item. -/
structure CheckOutcome where
  amounts : String → Option Nat
  notified : Bool

/-- The `finally` block of `_check_item`: if the recorded amount differs from
the observed one, log and record the observed amount.  At every reachable
call site the key is present; the `none` arm is dead code kept for totality. -/
def checkItemFinally (amounts : String → Option Nat) (id : String) (new : Nat)
    (notified : Bool) : CheckOutcome :=
  match amounts id with
  | some cur => if cur ≠ new then ⟨updateAmounts amounts id new, notified⟩ else ⟨amounts, notified⟩
  | none => ⟨amounts, notified⟩

/-- Source: `Scanner._check_item` (scanner.py lines 124-148).

```python
try:
    if self.amounts[item.item_id] == 0 \
            and item.items_available > self.amounts[item.item_id]:
        self._send_messages(item)
        self.metrics.send_notifications.labels(...).inc()
    self.metrics.item_count.labels(...).set(item.items_available)
except Exception:
    self.amounts[item.item_id] = item.items_available
finally:
    if self.amounts[item.item_id] != item.items_available:
        self._log.info(...)
        self.amounts[item.item_id] = item.items_available
```

A first-ever observation raises `KeyError` on the dict subscript before the
send branch can run; the `except` arm then records the observed count. -/
def checkItem (amounts : String → Option Nat) (item : Item) (fl : CheckFlags) :
    CheckOutcome :=
  let id := item.item_id
  let new := item.items_available
  match amounts id with
  | none =>
      -- KeyError on `self.amounts[item.item_id]`; handled by the `except` arm.
      checkItemFinally (updateAmounts amounts id new) id new false
  | some prior =>
      if prior = 0 ∧ new > prior then
        -- rising edge: `_send_messages` is invoked
        if fl.sendRaises ∨ fl.notifMetricRaises then
          -- exception after the dispatch attempt; `except` records the count
          checkItemFinally (updateAmounts amounts id new) id new true
        else if fl.countMetricRaises then
          checkItemFinally (updateAmounts amounts id new) id new true
        else
          checkItemFinally amounts id new true
      else
        if fl.countMetricRaises then
          checkItemFinally (updateAmounts amounts id new) id new false
        else
          checkItemFinally amounts id new false

/-! ## Favorites paging loop (src/tgtg_scanner/scanner.py lines 97-122) -/

/-- Result of one `get_items(favorites_only=True, page_size=100, page=page)`
request: either the page's item list or a raised exception. -/
inductive FavResp (α : Type) where
  | ok (its : List α)
  | err
  deriving Repr, DecidableEq

/-- Local `page_size = 100` of `_get_favorites`. -/
def favoritesPageSize : Nat := 100

/-- The `while True and error_count < 5` loop of `_get_favorites`, consuming
one response per request issued.  Returns the accumulated items together
with the page number of every request issued, or `none` when the supplied
response trace is too short to decide the call. -/
def getFavoritesLoop {α : Type} :
    List (FavResp α) → List α → Nat → Nat → Option (List α × List Nat)
  | rs, acc, page, errorCount =>
    if 5 ≤ errorCount then
      some (acc, [])
    else
      match rs with
      | [] => none
      | FavResp.ok newItems :: rs' =>
          if newItems.length < favoritesPageSize then
            some (acc ++ newItems, [page])
          else
            (getFavoritesLoop rs' (acc ++ newItems) (page + 1) errorCount).map
              (fun r => (r.1, page :: r.2))
      | FavResp.err :: rs' =>
          (getFavoritesLoop rs' acc page (errorCount + 1)).map
            (fun r => (r.1, page :: r.2))

/-- Source: `Scanner._get_favorites`: `items = []`, `page = 1`, `error_count = 0`. -/
def getFavorites {α : Type} (rs : List (FavResp α)) : Option (List α × List Nat) :=
  getFavoritesLoop rs [] 1 0

/-! ## TGTG client (src/tgtg_scanner/tgtg.py)

The client's mutable fields, its error classes and the authentication flow.
The HTTP layer is an oracle: each endpoint's possible responses are an
inductive type and the caller supplies the response(s) the server would
return, one per request issued. -/

/-- Source: `DEFAULT_ACCESS_TOKEN_LIFETIME = 3600 * 4  # 4 hours` -/
def DEFAULT_ACCESS_TOKEN_LIFETIME : Nat := 3600 * 4

/-- Source: `DEFAULT_MAX_POLLING_TRIES = 24` -/
def DEFAULT_MAX_POLLING_TRIES : Nat := 24

/-- Source: `DEFAULT_POLLING_WAIT_TIME = 5` seconds -/
def DEFAULT_POLLING_WAIT_TIME : Nat := 5

/-- The error classes raised by tgtg.py, one constructor per raise shape.
models/errors.py itself is not in the sources; the kinds follow the spec's
error taxonomy (ConfigurationError, LoginError, PollingError, ApiError as
distinct kinds), keyed by the class names used at the raise sites:
* `configurationError`: `TGTGConfigurationError(...)` in `login`
* `apiError status`: `TgtgAPIError(response.status_code, response.content)`
* `apiErrorRateLimited`: `TgtgAPIError("429 - Too many requests. ...")`
* `loginError status`: `TgtgLoginError(response.status_code, response.content)`
* `pollingTimeout s`: `TgtgPollingError("Max retries ({s} seconds) reached...")`
* `pollingSignupRequired`: `TgtgPollingError("This email ... is not linked
  to a tgtg account. Please signup ...")` raised on the `TERMS` state -/
inductive TgtgError where
  | configurationError
  | apiError (status : Nat)
  | apiErrorRateLimited
  | loginError (status : Nat)
  | pollingTimeout (reportedSeconds : Nat)
  | pollingSignupRequired
  deriving Repr, DecidableEq

/-- The mutable fields of `TgtgClient` relevant to the auth state machine. -/
structure TgtgState where
  email : Option String
  access_token : Option String
  refresh_token : Option String
  user_id : Option String
  last_time_token_refreshed : Option Nat
  access_token_lifetime : Nat
  max_polling_tries : Nat
  polling_wait_time : Nat
  deriving Repr, DecidableEq

/-- Python truthiness of an optional string field: `None` and `""` are falsy. -/
def truthy (o : Option String) : Bool :=
  match o with
  | none => false
  | some s => !(s = "")

/-- Source: `TgtgClient._already_logged`:
`bool(self.access_token and self.refresh_token and self.user_id)`. -/
def alreadyLogged (st : TgtgState) : Bool :=
  truthy st.access_token && truthy st.refresh_token && truthy st.user_id

/-- The validity check at the top of `login`:
`self.email or self.access_token and self.refresh_token and self.user_id`. -/
def sessionValid (st : TgtgState) : Bool :=
  truthy st.email || alreadyLogged st

/-- Constructor arguments of `TgtgClient.__init__` (auth-relevant subset). -/
structure InitArgs where
  email : Option String := none
  access_token : Option String := none
  refresh_token : Option String := none
  user_id : Option String := none
  access_token_lifetime : Nat := DEFAULT_ACCESS_TOKEN_LIFETIME
  max_polling_tries : Nat := DEFAULT_MAX_POLLING_TRIES
  polling_wait_time : Nat := DEFAULT_POLLING_WAIT_TIME
  deriving Repr, DecidableEq

/-- Source: `TgtgClient.__init__` (tgtg.py lines 36-73).  The body only assigns the
fields (`self.last_time_token_refreshed = None`, tokens from the arguments)
and sets up the HTTP session; it contains no validation and no raise
statement, so the result is always `.ok`. -/
def initClient (a : InitArgs) : Except TgtgError TgtgState :=
  Except.ok
    { email := a.email
      access_token := a.access_token
      refresh_token := a.refresh_token
      user_id := a.user_id
      last_time_token_refreshed := none
      access_token_lifetime := a.access_token_lifetime
      max_polling_tries := a.max_polling_tries
      polling_wait_time := a.polling_wait_time }

/-- Server response to the `auth/v3/token/refresh` request: HTTP 200 with
fresh tokens, or any other status. -/
inductive RefreshResp where
  | ok (access refresh : String)
  | httpError (status : Nat)
  deriving Repr, DecidableEq

/-- Outcome of `_refresh_token`: the new client state (or raised error) and
whether the refresh request was issued at all. -/
structure RefreshOutcome where
  result : Except TgtgError TgtgState
  requested : Bool
  deriving Repr

/-- Source: `TgtgClient._refresh_token` (tgtg.py lines 114-130).

```python
if (self.last_time_token_refreshed
        and (datetime.datetime.now() - self.last_time_token_refreshed).seconds
        <= self.access_token_lifetime):
    return
response = self._request(REFRESH_ENDPOINT, json={...})
if response.status_code == HTTPStatus.OK:
    self.access_token = ...; self.refresh_token = ...
    self.last_time_token_refreshed = datetime.datetime.now()
else:
    raise TgtgAPIError(response.status_code, response.content)
```

`timedelta.seconds` is the seconds component of the day-normalised delta,
i.e. `(now - last) % 86400` for `now ≥ last` — NOT the total elapsed time. -/
def refreshToken (st : TgtgState) (now : Nat) (resp : RefreshResp) : RefreshOutcome :=
  match st.last_time_token_refreshed with
  | some last =>
      if (now - last) % 86400 ≤ st.access_token_lifetime then
        ⟨Except.ok st, false⟩
      else
        refreshTokenRequest st now resp
  | none => refreshTokenRequest st now resp
where
  refreshTokenRequest (st : TgtgState) (now : Nat) (resp : RefreshResp) : RefreshOutcome :=
    match resp with
    | RefreshResp.ok a r =>
        ⟨Except.ok { st with
            access_token := some a
            refresh_token := some r
            last_time_token_refreshed := some now }, true⟩
    | RefreshResp.httpError status => ⟨Except.error (TgtgError.apiError status), true⟩

/-- Server response to one `auth/v3/authByRequestPollingId` request:
HTTP 202 (still pending), HTTP 200 with the login payload, HTTP 429, or any
other status. -/
inductive PollResp where
  | accepted
  | ok (access refresh userId : String)
  | rateLimited
  | httpError (status : Nat)
  deriving Repr, DecidableEq

/-- Aggregate outcome of `start_polling`: the result, the number of polling
requests issued and the total `time.sleep` seconds. -/
structure PollOutcome where
  result : Except TgtgError TgtgState
  attempts : Nat
  waited : Nat
  deriving Repr

/-- The `for _ in range(self.max_polling_tries)` loop of `start_polling`,
one response consumed per attempt; `tries` is the number of loop iterations
left.  `none` when the response trace is shorter than the attempts made. -/
def startPollingLoop (st : TgtgState) (now : Nat) :
    List PollResp → Nat → Nat → Nat → Option PollOutcome
  | _, 0, attempts, waited =>
      -- loop exhausted: raise TgtgPollingError reporting max_polling_tries *
      -- polling_wait_time seconds
      some ⟨Except.error
        (TgtgError.pollingTimeout (st.max_polling_tries * st.polling_wait_time)),
        attempts, waited⟩
  | [], _ + 1, _, _ => none
  | r :: rs, tries + 1, attempts, waited =>
      match r with
      | PollResp.accepted =>
          -- HTTP 202: warn, sleep(polling_wait_time), continue
          startPollingLoop st now rs tries (attempts + 1) (waited + st.polling_wait_time)
      | PollResp.ok a rf uid =>
          -- HTTP 200: store tokens and user id, reset the refresh timestamp
          some ⟨Except.ok { st with
              access_token := some a
              refresh_token := some rf
              user_id := some uid
              last_time_token_refreshed := some now }, attempts + 1, waited⟩
      | PollResp.rateLimited =>
          some ⟨Except.error TgtgError.apiErrorRateLimited, attempts + 1, waited⟩
      | PollResp.httpError status =>
          some ⟨Except.error (TgtgError.loginError status), attempts + 1, waited⟩

/-- Source: `TgtgClient.start_polling` (tgtg.py lines 168-201).  `pid` is the
`request_polling_id` sent with every request; it does not influence the
client-side control flow. -/
def startPolling (st : TgtgState) (now : Nat) (_pid : String)
    (resps : List PollResp) : Option PollOutcome :=
  startPollingLoop st now resps st.max_polling_tries 0 0

/-- Server response to the `auth/v3/authByEmail` request: HTTP 200 with a
JSON body carrying `state` (and `polling_id`), or a non-OK status. -/
inductive AuthByEmailResp where
  | okState (state : String) (polling_id : String)
  | httpError (status : Nat)
  deriving Repr, DecidableEq

/-- The server-side oracle for one `login()` call: whichever requests the
call issues consume the corresponding responses. -/
structure LoginEnv where
  authResp : AuthByEmailResp
  refreshResp : RefreshResp
  pollResps : List PollResp
  deriving Repr, DecidableEq

/-- Source: `TgtgClient.login` (tgtg.py lines 132-166).

```python
if not (self.email or self.access_token and self.refresh_token and self.user_id):
    raise TGTGConfigurationError(...)
if self._already_logged:
    self._refresh_token()
else:
    response = self._request(AUTH_BY_EMAIL_ENDPOINT, ...)
    if response.status_code == HTTPStatus.OK:
        if state == "TERMS": raise TgtgPollingError("... signup ...")
        if state == "WAIT": self.start_polling(polling_id)
        else: raise TgtgLoginError(response.status_code, response.content)
    else:
        if response.status_code == 429: raise TgtgAPIError("429 - ...")
        raise TgtgLoginError(response.status_code, response.content)
```

Returns `none` only when the polling branch runs out of supplied responses.
In the OK branch the `TgtgLoginError` carries `response.status_code`,
which is 200 there. -/
def login (st : TgtgState) (now : Nat) (env : LoginEnv) :
    Option (Except TgtgError TgtgState) :=
  if !(sessionValid st) then
    some (Except.error TgtgError.configurationError)
  else if alreadyLogged st then
    some (refreshToken st now env.refreshResp).result
  else
    match env.authResp with
    | AuthByEmailResp.okState state polling_id =>
        if state = "TERMS" then
          some (Except.error TgtgError.pollingSignupRequired)
        else if state = "WAIT" then
          (startPolling st now polling_id env.pollResps).map (fun o => o.result)
        else
          some (Except.error (TgtgError.loginError 200))
    | AuthByEmailResp.httpError status =>
        if status = 429 then
          some (Except.error TgtgError.apiErrorRateLimited)
        else
          some (Except.error (TgtgError.loginError status))

/-! ## Notifier fan-out (src/tgtg_scanner/models/notifier.py and
src/tgtg_scanner/notifiers/__init__.py)

A channel is modelled by its `enabled` flag and by whether its `_send`
raises on a given item. -/

/-- One delivery channel: `enabled` as configured, and the behavior of its
`_send(item)` implementation (`true` = raises a `DeliveryError`). -/
structure ChannelBehavior where
  enabled : Bool
  sendRaises : Item → Bool

/-- Trace of one `Notifier.send(item)` call: the item passed to `_send`, if
`_send` was invoked at all. -/
structure SendTrace where
  sent : Option Item

/-- The channel-specific `Notifier._send(item)` implementation. -/
def notifierUnderlyingSend (ch : ChannelBehavior) (item : Item) : Except String Unit :=
  if ch.sendRaises item then Except.error "DeliveryError" else Except.ok ()

/-- Source: `Notifier.send` (models/notifier.py lines 64-74):

```python
if self.enabled:
    try:
        self._send(item)
    except Exception as err:
        self._log.error(err)
```

A raise inside `_send` is caught and logged, so the call itself never
raises (`Except.ok` in every case). -/
def notifierSend (ch : ChannelBehavior) (item : Item) : Except String SendTrace :=
  if ch.enabled then
    match notifierUnderlyingSend ch item with
    | Except.error _err => Except.ok ⟨some item⟩  -- caught: `self._log.error(err)`
    | Except.ok () => Except.ok ⟨some item⟩
  else
    Except.ok ⟨none⟩

/-- The five channels held by `Notifiers` (notifiers/__init__.py). -/
structure NotifiersModel where
  push_safer : ChannelBehavior
  smtp : ChannelBehavior
  ifttt : ChannelBehavior
  webhook : ChannelBehavior
  telegram : ChannelBehavior

/-- Source: `Notifiers.send` (notifiers/__init__.py lines 59-69): each channel's
`send` in the fixed source order; an uncaught exception in one call would
abort the remaining calls (Except bind), which is what the per-channel
`try`/`except` in `Notifier.send` prevents. -/
def notifiersSend (ns : NotifiersModel) (item : Item) : Except String (List SendTrace) := do
  let a ← notifierSend ns.push_safer item
  let b ← notifierSend ns.smtp item
  let c ← notifierSend ns.ifttt item
  let d ← notifierSend ns.webhook item
  let e ← notifierSend ns.telegram item
  pure [a, b, c, d, e]

/-! ## Webhook templating (src/tgtg_scanner/notifiers/webhook.py)

The placeholder grammar is the regex `\$\x7b\x7b([a-zA-Z0-9_]+)\x7d\x7d`
(a dollar sign, two opening braces, a nonempty alphanumeric/underscore
name, two closing braces).  Template strings are handled as `List Char`.

`re.finditer` yields the non-overlapping matches of the original string,
scanning left to right.  Because a match's interior ('{', name characters,
'}') contains no further '$', a character-by-character scan that records a
match at every position where one starts yields exactly the same matches,
which is how `findNames` is defined (keeping it structurally recursive). -/

/-- The regex character class `[a-zA-Z0-9_]`. -/
def isAlnumU (c : Char) : Bool := c.isAlphanum || c = '_'

/-- Does a placeholder match start at the head of `s`?  If so, return its
name (`match.group(1)`). -/
def tryPh (s : List Char) : Option (List Char) :=
  match s with
  | a :: b :: c :: rest =>
      if a = '$' ∧ b = '{' ∧ c = '{' then
        let run := rest.takeWhile isAlnumU
        if run ≠ [] ∧ ['}', '}'].isPrefixOf (rest.dropWhile isAlnumU) then
          some run
        else none
      else none
  | _ => none

/-- The names of all placeholder matches of a template, in template order
(the `match.group(1)` values of `re.finditer`). -/
def findNames : List Char → List (List Char)
  | [] => []
  | c :: cs =>
      match tryPh (c :: cs) with
      | some n => n :: findNames cs
      | none => findNames cs

/-- Source: `match.group(0)`: the full matched text of a placeholder named `n`. -/
def phText (n : List Char) : List Char :=
  '$' :: '{' :: '{' :: (n ++ ['}', '}'])

/-- Fuelled worker for `replaceAll`; with `fuel ≥ s.length` it is Python's
`s.replace(p, v)` (left-to-right, non-overlapping). -/
def replaceAllGo (p v : List Char) : Nat → List Char → List Char
  | _, [] => []
  | 0, s => s
  | fuel + 1, c :: cs =>
      if p ≠ [] ∧ p.isPrefixOf (c :: cs) then
        v ++ replaceAllGo p v fuel ((c :: cs).drop p.length)
      else
        c :: replaceAllGo p v fuel cs

/-- Python `s.replace(p, v)` for a nonempty pattern `p`. -/
def replaceAll (p v s : List Char) : List Char :=
  replaceAllGo p v s.length s

/-- Source: `ATTRS` as character lists, for comparing regex capture groups. -/
def ATTRSChars : List (List Char) := ATTRS.map String.data

/-- Source: `hasattr(item, name)` restricted to the template attribute set.  (CPython
would also report class-level members such as `ATTRS` itself; those are
rejected by `_init` before any send, so they are not modelled.) -/
def itemHasattr (n : List Char) : Bool := ATTRSChars.contains n

/-- Source: `str(getattr(item, name))` for the template attributes. -/
def attrValue (item : Item) (n : List Char) : List Char :=
  if n = "item_id".data then item.item_id.data
  else if n = "items_available".data then (toString item.items_available).data
  else if n = "display_name".data then item.display_name.data
  else if n = "price".data then item.priceStr.data
  else if n = "currency".data then item.currency.data
  else if n = "pickupdate".data then item.pickupdateStr.data
  else []

/-- The substitution loop of `WebHook._send` applied to one template string:

```python
for match in re.finditer(r"...", url):
    if hasattr(item, match.group(1)):
        url = url.replace(match.group(0), str(getattr(item, match.group(1))))
```

`re.finditer` receives the template as passed in, so the matches are those
of the original string while each `replace` acts on the evolving one. -/
def renderChars (s : List Char) (item : Item) : List Char :=
  (findNames s).foldl
    (fun acc n => if itemHasattr n then replaceAll (phText n) (attrValue item n) acc else acc)
    s

/-- String-level wrapper of `renderChars`. -/
def renderTemplate (s : String) (item : Item) : String :=
  String.mk (renderChars s.data item)

/-- The webhook settings consumed by `_init` and `_send`. -/
structure WebHookConfig where
  method : String
  url : String
  body : String
  deriving Repr, DecidableEq

/-- Source: `WebHook._init` (webhook.py lines 15-23): reject a missing method/url,
then reject any placeholder of the body or the url whose name is not in
`Item.ATTRS`, raising `WebHookConfigurationError`. -/
def webhookInit (cfg : WebHookConfig) : Except Unit Unit :=
  if cfg.method = "" ∨ cfg.url = "" then
    Except.error ()
  else if !((findNames cfg.body.data).all (fun n => ATTRSChars.contains n)) then
    Except.error ()
  else if !((findNames cfg.url.data).all (fun n => ATTRSChars.contains n)) then
    Except.error ()
  else
    Except.ok ()

/-- The rendering performed by `WebHook._send` before the HTTP request: the
substituted url and, when the configured body is non-empty, the substituted
body.  The substitution itself is total — it cannot raise. -/
def webhookRender (cfg : WebHookConfig) (item : Item) : String × Option String :=
  (renderTemplate cfg.url item,
   if cfg.body = "" then none else some (renderTemplate cfg.body item))

/-! ### Template shapes

To state what rendering does to every template, a template is viewed as a
sequence of chunks: literal text and placeholders.  `flattenChunks` writes
the template string of a chunk list; well-formedness asks that literal text
contains no '$' (so the placeholders of the flattened string are exactly
the `ph` chunks) and that placeholder names are nonempty alphanumeric. -/

inductive Chunk where
  | lit (s : List Char)
  | ph (n : List Char)
  deriving Repr, DecidableEq

/-- The template string denoted by a chunk list. -/
def flattenChunks : List Chunk → List Char
  | [] => []
  | Chunk.lit s :: rest => s ++ flattenChunks rest
  | Chunk.ph n :: rest => phText n ++ flattenChunks rest

/-- A placeholder name as the regex produces it: nonempty, `[a-zA-Z0-9_]`. -/
def alnumName (n : List Char) : Prop := n ≠ [] ∧ ∀ c ∈ n, isAlnumU c

instance (n : List Char) : Decidable (alnumName n) := by
  unfold alnumName; infer_instance

/-- Well-formedness of one chunk. -/
def chunkOK : Chunk → Prop
  | Chunk.lit s => '$' ∉ s
  | Chunk.ph n => alnumName n

instance (c : Chunk) : Decidable (chunkOK c) := by
  cases c <;> (unfold chunkOK; infer_instance)

/-- Well-formedness of a template given as chunks. -/
def wfChunks (chunks : List Chunk) : Prop := ∀ c ∈ chunks, chunkOK c

instance (chunks : List Chunk) : Decidable (wfChunks chunks) := by
  unfold wfChunks; infer_instance

/-- The names of the `ph` chunks, in order. -/
def phNames : List Chunk → List (List Char)
  | [] => []
  | Chunk.lit _ :: rest => phNames rest
  | Chunk.ph n :: rest => n :: phNames rest

/-- Simultaneous substitution on the chunk view: every placeholder whose
name is an item attribute becomes the literal attribute value; any other
placeholder stays in place verbatim. -/
def substChunks (chunks : List Chunk) (item : Item) : List Chunk :=
  chunks.map (fun c =>
    match c with
    | Chunk.ph n => if itemHasattr n then Chunk.lit (attrValue item n) else c
    | Chunk.lit _ => c)

/-- One pass of the rendering loop on the chunk view: the global
`replace` of the placeholder named `n` by the text `v`. -/
def replacePhChunks (n v : List Char) (chunks : List Chunk) : List Chunk :=
  chunks.map (fun c =>
    match c with
    | Chunk.ph m => if m = n then Chunk.lit v else c
    | Chunk.lit _ => c)

/-- The item's rendered attribute values contain no '$' (so substitution
cannot fabricate new placeholder text).  Decidable, quantified over the
finite attribute list. -/
def valuesDollarFree (item : Item) : Prop :=
  ∀ n ∈ ATTRSChars, '$' ∉ attrValue item n

instance (item : Item) : Decidable (valuesDollarFree item) := by
  unfold valuesDollarFree; infer_instance

/-! ## Concrete states used to settle individual claims -/

/-- Discriminator for the `TgtgLoginError` kind. -/
def isLoginError : TgtgError → Bool
  | TgtgError.loginError _ => true
  | _ => false

/-- An email-only session (valid, not fully credentialed). -/
def emailOnlyState : TgtgState :=
  { email := some "user@example.com"
    access_token := none
    refresh_token := none
    user_id := none
    last_time_token_refreshed := none
    access_token_lifetime := DEFAULT_ACCESS_TOKEN_LIFETIME
    max_polling_tries := DEFAULT_MAX_POLLING_TRIES
    polling_wait_time := DEFAULT_POLLING_WAIT_TIME }

/-- A fully credentialed session whose last refresh was at time 0. -/
def credentialedState : TgtgState :=
  { email := none
    access_token := some "A"
    refresh_token := some "R"
    user_id := some "U"
    last_time_token_refreshed := some 0
    access_token_lifetime := DEFAULT_ACCESS_TOKEN_LIFETIME
    max_polling_tries := DEFAULT_MAX_POLLING_TRIES
    polling_wait_time := DEFAULT_POLLING_WAIT_TIME }

/-- A login environment whose email submission answers `state = "TERMS"`. -/
def envTerms : LoginEnv :=
  { authResp := AuthByEmailResp.okState "TERMS" "pid"
    refreshResp := RefreshResp.ok "x" "y"
    pollResps := [] }

/-- A login environment whose email submission answers HTTP 429. -/
def env429 : LoginEnv :=
  { envTerms with authResp := AuthByEmailResp.httpError 429 }

/-- A session configured as in the spec's login-polling scenario:
`max_polling_tries = 3`, `polling_wait_time = 0`. -/
def pollingTestState : TgtgState :=
  { emailOnlyState with max_polling_tries := 3, polling_wait_time := 0 }

/-- A sample well-formed template with both item placeholders and an
unknown one. -/
def sampleChunks : List Chunk :=
  [Chunk.lit "n=".data, Chunk.ph "items_available".data,
   Chunk.lit " from ".data, Chunk.ph "display_name".data,
   Chunk.lit " ".data, Chunk.ph "bogus".data]

/-- A sample item. -/
def sampleItem : Item :=
  { item_id := "id1"
    items_available := 3
    display_name := "Shop A"
    priceStr := "4.99"
    currency := "EUR"
    pickupdateStr := "Today, 20:00 - 21:00" }

/-- A webhook configuration whose body holds the unknown placeholder of
`sampleChunks`. -/
def sampleBadCfg : WebHookConfig :=
  { method := "POST"
    url := "http://example.org"
    body := String.mk (flattenChunks sampleChunks) }

/-! # Theorems -/

/-! ## The `_check_item` edge detector -/

lemma checkItemFinally_notified (a : String → Option Nat) (id : String) (new : Nat)
    (b : Bool) : (checkItemFinally a id new b).notified = b := by
  unfold checkItemFinally
  cases h : a id with
  | none => rfl
  | some cur => by_cases hc : cur ≠ new <;> simp [hc]

lemma updateAmounts_self (a : String → Option Nat) (id : String) (v : Nat) :
    updateAmounts a id v id = some v := by
  simp [updateAmounts]

lemma checkItemFinally_amounts (a : String → Option Nat) (id : String) (new : Nat)
    (b : Bool) (h : ∃ cur, a id = some cur) :
    (checkItemFinally a id new b).amounts id = some new := by
  obtain ⟨cur, hcur⟩ := h
  unfold checkItemFinally
  rw [hcur]
  by_cases hc : cur ≠ new
  · simp [hc, updateAmounts_self]
  · push_neg at hc
    subst hc
    simp [hcur]

/-- The `notified` flag is exactly the rising-edge test on the recorded count. -/
lemma checkItem_notified_iff (amounts : String → Option Nat) (item : Item)
    (fl : CheckFlags) :
    (checkItem amounts item fl).notified = true ↔
      (amounts item.item_id = some 0 ∧ 0 < item.items_available) := by
  cases h : amounts item.item_id with
  | none => simp [checkItem, h, checkItemFinally_notified]
  | some prior =>
      simp only [checkItem, h]
      by_cases he : prior = 0 ∧ item.items_available > prior
      · rw [if_pos he]
        obtain ⟨h0, hgt⟩ := he
        constructor
        · intro _
          exact ⟨by rw [h0], by simpa [h0] using hgt⟩
        · intro _
          split
          · exact checkItemFinally_notified ..
          · split
            · exact checkItemFinally_notified ..
            · exact checkItemFinally_notified ..
      · rw [if_neg he]
        constructor
        · intro hn
          exfalso
          revert hn
          split <;> simp [checkItemFinally_notified]
        · rintro ⟨hp, hpos⟩
          injection hp with hp
          exact absurd ⟨hp, by simpa [hp] using hpos⟩ he

/-- After every `_check_item` call the recorded count equals the observed one. -/
lemma checkItem_amounts_eq (amounts : String → Option Nat) (item : Item)
    (fl : CheckFlags) :
    (checkItem amounts item fl).amounts item.item_id = some item.items_available := by
  have hup : ∀ b, (checkItemFinally
      (updateAmounts amounts item.item_id item.items_available)
      item.item_id item.items_available b).amounts item.item_id =
        some item.items_available :=
    fun b => checkItemFinally_amounts _ _ _ _ ⟨_, updateAmounts_self ..⟩
  cases h : amounts item.item_id with
  | none => simpa [checkItem, h] using hup false
  | some prior =>
      have hor : ∀ b, (checkItemFinally amounts item.item_id
          item.items_available b).amounts item.item_id = some item.items_available :=
        fun b => checkItemFinally_amounts _ _ _ _ ⟨_, h⟩
      simp only [checkItem, h]
      split
      · split
        · exact hup true
        · split
          · exact hup true
          · exact hor true
      · split
        · exact hup false
        · exact hor false

/-- C1: a notification is dispatched if and only if the recorded count
immediately before the observation is exactly 0 and the observed count is
strictly positive; a first-ever observation (no recorded entry, modelled by
the empty tracker and, more generally, by `amounts item.item_id = none`)
never dispatches.  Quantifying over the full tracker state covers every
sequence of prior observations. -/
theorem check_item_rising_edge_iff :
    (∀ (amounts : String → Option Nat) (item : Item) (fl : CheckFlags),
        (checkItem amounts item fl).notified = true ↔
          (amounts item.item_id = some 0 ∧ 0 < item.items_available))
    ∧ (∀ (item : Item) (fl : CheckFlags),
        (checkItem (fun _ => none) item fl).notified = false) := by
  refine ⟨checkItem_notified_iff, fun item fl => ?_⟩
  have h := checkItem_notified_iff (fun _ => none) item fl
  simp at h
  simpa using h

/-- C10: every `_check_item` call terminates with the recorded count equal
to the observed count — on first observation and under dispatch/metrics
exceptions alike — so a rising edge whose dispatch raised is consumed: an
immediately following observation of the same item notifies iff the first
observed count was 0 and the second is positive. -/
theorem check_item_records_observed_count :
    (∀ (amounts : String → Option Nat) (item : Item) (fl : CheckFlags),
        (checkItem amounts item fl).amounts item.item_id = some item.items_available)
    ∧ (∀ (amounts : String → Option Nat) (item item2 : Item) (fl fl2 : CheckFlags),
        (checkItem (checkItem amounts item fl).amounts
            { item2 with item_id := item.item_id } fl2).notified = true ↔
          (item.items_available = 0 ∧ 0 < item2.items_available)) := by
  refine ⟨checkItem_amounts_eq, fun amounts item item2 fl fl2 => ?_⟩
  rw [checkItem_notified_iff]
  simp [checkItem_amounts_eq]

/-! ## The `_get_favorites` paging loop -/

/-- C2: two full pages of 100 followed by a 40-item page accumulate exactly
the 240 concatenated items with exactly three requests, for pages 1, 2, 3. -/
theorem get_favorites_three_pages (α : Type) (p1 p2 p3 : List α)
    (h1 : p1.length = 100) (h2 : p2.length = 100) (h3 : p3.length = 40) :
    getFavorites [FavResp.ok p1, FavResp.ok p2, FavResp.ok p3] =
      some (p1 ++ p2 ++ p3, [1, 2, 3]) ∧ (p1 ++ p2 ++ p3).length = 240 := by
  constructor
  · simp [getFavorites, getFavoritesLoop, favoritesPageSize, h1, h2, h3]
  · simp [h1, h2, h3]

/-- Witness for C2 at concrete pages. -/
theorem get_favorites_three_pages_witness :
    (List.replicate 100 (0 : Nat)).length = 100 ∧
    (List.replicate 40 (2 : Nat)).length = 40 ∧
    getFavorites [FavResp.ok (List.replicate 100 (0 : Nat)),
        FavResp.ok (List.replicate 100 1), FavResp.ok (List.replicate 40 2)] =
      some (List.replicate 100 0 ++ List.replicate 100 1 ++ List.replicate 40 2,
        [1, 2, 3]) :=
  ⟨by simp, by simp,
    (get_favorites_three_pages Nat (List.replicate 100 0) (List.replicate 100 1)
      (List.replicate 40 2) (by simp) (by simp) (by simp)).1⟩

/-- C3: a page-fetch error increments the error counter and reissues the
request for the same page number; once the counter reaches the bound of 5
the loop stops issuing requests and returns what was accumulated, without
raising. -/
theorem get_favorites_error_retry_and_bound :
    (∀ (α : Type) (rs : List (FavResp α)) (acc : List α) (page errorCount : Nat),
        errorCount < 5 →
        getFavoritesLoop (FavResp.err :: rs) acc page errorCount =
          (getFavoritesLoop rs acc page (errorCount + 1)).map
            (fun r => (r.1, page :: r.2)))
    ∧ (∀ (α : Type) (rs : List (FavResp α)) (acc : List α) (page errorCount : Nat),
        5 ≤ errorCount →
        getFavoritesLoop rs acc page errorCount = some (acc, [])) := by
  constructor
  · intro α rs acc page errorCount hlt
    have hc : ¬ (5 ≤ errorCount) := by omega
    rw [getFavoritesLoop.eq_def]
    simp [hc]
  · intro α rs acc page errorCount hge
    rw [getFavoritesLoop.eq_def]
    simp [hge]

/-- Witness for C3: one full page, then five consecutive errors — each error
retried page 2, then the loop stops with the 100 accumulated items. -/
theorem get_favorites_error_retry_and_bound_witness :
    (0 : Nat) < 5 ∧ (5 : Nat) ≤ 5 ∧
    getFavoritesLoop (FavResp.err :: []) ([] : List Nat) 2 0 =
      (getFavoritesLoop ([] : List (FavResp Nat)) [] 2 1).map
        (fun r => (r.1, 2 :: r.2)) ∧
    getFavoritesLoop ([] : List (FavResp Nat)) (List.replicate 100 0) 2 5 =
      some (List.replicate 100 0, []) :=
  ⟨by decide, by decide,
    get_favorites_error_retry_and_bound.1 Nat [] [] 2 0 (by decide),
    get_favorites_error_retry_and_bound.2 Nat [] (List.replicate 100 0) 2 5 (by decide)⟩

/-! ## Notifier fan-out isolation -/

lemma notifierSend_eq (ch : ChannelBehavior) (item : Item) :
    notifierSend ch item = Except.ok ⟨if ch.enabled then some item else none⟩ := by
  unfold notifierSend notifierUnderlyingSend
  by_cases he : ch.enabled = true
  · by_cases hr : ch.sendRaises item = true <;> simp [he, hr]
  · simp [he]

/-- C9: `Notifiers.send` returns normally for every combination of channel
behaviors — in particular when exactly one enabled channel's `_send`
raises — and the trace shows each enabled channel's `_send` invoked with
the item while disabled channels are never invoked. -/
theorem notifiers_send_isolation (ns : NotifiersModel) (item : Item) :
    notifiersSend ns item = Except.ok
      [⟨if ns.push_safer.enabled then some item else none⟩,
       ⟨if ns.smtp.enabled then some item else none⟩,
       ⟨if ns.ifttt.enabled then some item else none⟩,
       ⟨if ns.webhook.enabled then some item else none⟩,
       ⟨if ns.telegram.enabled then some item else none⟩] := by
  simp [notifiersSend, notifierSend_eq]
  rfl

/-! ## Token refresh -/

/-- C6 (code bug): tgtg.py compares `timedelta.seconds` — the elapsed time
modulo one day — against the token lifetime, not the total elapsed time.
With the last refresh recorded at time 0 and `now` one day and one second
later, the elapsed 86401 s exceeds the 14400 s lifetime, yet
`_refresh_token` returns without issuing the refresh request and leaves
every token field unchanged. -/
theorem refresh_token_day_wraparound_skips_refresh :
    credentialedState.access_token_lifetime < 86401 - 0 ∧
    credentialedState.last_time_token_refreshed = some 0 ∧
    (refreshToken credentialedState 86401 (RefreshResp.ok "fresh_a" "fresh_r")).requested
      = false ∧
    (refreshToken credentialedState 86401 (RefreshResp.ok "fresh_a" "fresh_r")).result
      = Except.ok credentialedState := by
  refine ⟨by decide, rfl, rfl, rfl⟩

/-! ## Session construction -/

/-- C7 counterexample: constructing a `TgtgClient` with neither an email nor
a full token triple succeeds — `__init__` performs no validation and returns
a (invalid) session object instead of raising. -/
theorem init_invalid_session_constructs :
    initClient { } = Except.ok
      { email := none
        access_token := none
        refresh_token := none
        user_id := none
        last_time_token_refreshed := none
        access_token_lifetime := DEFAULT_ACCESS_TOKEN_LIFETIME
        max_polling_tries := DEFAULT_MAX_POLLING_TRIES
        polling_wait_time := DEFAULT_POLLING_WAIT_TIME } ∧
    sessionValid
      { email := none
        access_token := none
        refresh_token := none
        user_id := none
        last_time_token_refreshed := none
        access_token_lifetime := DEFAULT_ACCESS_TOKEN_LIFETIME
        max_polling_tries := DEFAULT_MAX_POLLING_TRIES
        polling_wait_time := DEFAULT_POLLING_WAIT_TIME } = false :=
  ⟨rfl, rfl⟩

/-- C7 (amended): the email-or-token-triple invariant is enforced not at
construction but at the first `login()` call, which raises
`TGTGConfigurationError` for an invalid session before issuing any request. -/
theorem login_invalid_session_config_error (st : TgtgState) (now : Nat)
    (env : LoginEnv) (h : sessionValid st = false) :
    login st now env = some (Except.error TgtgError.configurationError) := by
  simp [login, h]

/-- Witness for the amended C7 at the all-`None` constructor arguments. -/
theorem login_invalid_session_config_error_witness :
    sessionValid
      { email := none
        access_token := none
        refresh_token := none
        user_id := none
        last_time_token_refreshed := none
        access_token_lifetime := DEFAULT_ACCESS_TOKEN_LIFETIME
        max_polling_tries := DEFAULT_MAX_POLLING_TRIES
        polling_wait_time := DEFAULT_POLLING_WAIT_TIME } = false ∧
    login
      { email := none
        access_token := none
        refresh_token := none
        user_id := none
        last_time_token_refreshed := none
        access_token_lifetime := DEFAULT_ACCESS_TOKEN_LIFETIME
        max_polling_tries := DEFAULT_MAX_POLLING_TRIES
        polling_wait_time := DEFAULT_POLLING_WAIT_TIME } 0 envTerms =
      some (Except.error TgtgError.configurationError) :=
  ⟨rfl, login_invalid_session_config_error _ 0 envTerms rfl⟩

/-! ## Login polling -/

lemma startPollingLoop_attempts_le (st : TgtgState) (now : Nat) :
    ∀ (resps : List PollResp) (tries attempts waited : Nat) (out : PollOutcome),
      startPollingLoop st now resps tries attempts waited = some out →
      out.attempts ≤ attempts + tries := by
  intro resps
  induction resps with
  | nil =>
      intro tries attempts waited out h
      cases tries with
      | zero =>
          simp [startPollingLoop] at h
          simp [← h]
      | succ tries => simp [startPollingLoop] at h
  | cons r rs ih =>
      intro tries attempts waited out h
      cases tries with
      | zero =>
          simp [startPollingLoop] at h
          simp [← h]
      | succ tries =>
          cases r with
          | accepted =>
              have := ih tries (attempts + 1) (waited + st.polling_wait_time) out h
              omega
          | ok a rf uid =>
              simp [startPollingLoop] at h
              simp [← h]
          | rateLimited =>
              simp [startPollingLoop] at h
              simp [← h]
          | httpError s =>
              simp [startPollingLoop] at h
              simp [← h]

lemma startPollingLoop_all_accepted (st : TgtgState) (now : Nat) :
    ∀ (tries : Nat) (resps : List PollResp) (attempts waited : Nat),
      tries ≤ resps.length → (∀ r ∈ resps, r = PollResp.accepted) →
      startPollingLoop st now resps tries attempts waited =
        some ⟨Except.error
            (TgtgError.pollingTimeout (st.max_polling_tries * st.polling_wait_time)),
          attempts + tries, waited + tries * st.polling_wait_time⟩ := by
  intro tries
  induction tries with
  | zero =>
      intro resps attempts waited _ _
      cases resps <;> simp [startPollingLoop]
  | succ tries ih =>
      intro resps attempts waited hlen hall
      cases resps with
      | nil => simp at hlen
      | cons r rs =>
          have hr : r = PollResp.accepted := hall r (by simp)
          subst hr
          have hlen2 : tries ≤ rs.length := by simp at hlen; omega
          have hall2 : ∀ x ∈ rs, x = PollResp.accepted :=
            fun x hx => hall x (by simp [hx])
          have hstep : startPollingLoop st now (PollResp.accepted :: rs) (tries + 1)
              attempts waited =
              startPollingLoop st now rs tries (attempts + 1)
                (waited + st.polling_wait_time) := rfl
          rw [hstep, ih rs (attempts + 1) (waited + st.polling_wait_time) hlen2 hall2]
          have h1 : attempts + 1 + tries = attempts + (tries + 1) := by omega
          have h2 : waited + st.polling_wait_time + tries * st.polling_wait_time
              = waited + (tries + 1) * st.polling_wait_time := by ring
          rw [h1, h2]

/-- C4: the polling loop issues at most `max_polling_tries` requests; a
"still pending" (HTTP 202) response adds one fixed `polling_wait_time` and
continues; exhausting every attempt raises `TgtgPollingError` reporting
`max_polling_tries * polling_wait_time` seconds of waiting; a "confirmed"
(HTTP 200) response stores the provider's access token, refresh token and
user id, resets the refresh timestamp and returns — in particular, with
`max_polling_tries = 3`, on attempt 2. -/
theorem start_polling_spec :
    (∀ (st : TgtgState) (now : Nat) (pid : String) (resps : List PollResp)
        (out : PollOutcome), startPolling st now pid resps = some out →
        out.attempts ≤ st.max_polling_tries)
    ∧ (∀ (st : TgtgState) (now : Nat) (rs : List PollResp) (tries a w : Nat),
        startPollingLoop st now (PollResp.accepted :: rs) (tries + 1) a w =
          startPollingLoop st now rs tries (a + 1) (w + st.polling_wait_time))
    ∧ (∀ (st : TgtgState) (now : Nat) (pid : String) (resps : List PollResp),
        st.max_polling_tries ≤ resps.length →
        (∀ r ∈ resps, r = PollResp.accepted) →
        startPolling st now pid resps =
          some ⟨Except.error (TgtgError.pollingTimeout
              (st.max_polling_tries * st.polling_wait_time)),
            st.max_polling_tries, st.max_polling_tries * st.polling_wait_time⟩)
    ∧ (∀ (st : TgtgState) (now : Nat) (pid : String) (a rf uid : String)
        (rest : List PollResp), st.max_polling_tries = 3 →
        startPolling st now pid (PollResp.accepted :: PollResp.ok a rf uid :: rest) =
          some ⟨Except.ok { st with
              access_token := some a
              refresh_token := some rf
              user_id := some uid
              last_time_token_refreshed := some now }, 2, st.polling_wait_time⟩) := by
  refine ⟨?_, ?_, ?_, ?_⟩
  · intro st now pid resps out h
    simpa using startPollingLoop_attempts_le st now resps st.max_polling_tries 0 0 out h
  · intro st now rs tries a w
    rfl
  · intro st now pid resps hlen hall
    have := startPollingLoop_all_accepted st now st.max_polling_tries resps 0 0 hlen hall
    simpa [startPolling] using this
  · intro st now pid a rf uid rest hmax
    simp [startPolling, hmax, startPollingLoop]

/-- Witness for C4 at `max_polling_tries = 3`, `polling_wait_time = 0`:
three pending responses exhaust the attempts with `TgtgPollingError`, and a
confirmed response on attempt 2 stores the provider's tokens. -/
theorem start_polling_spec_witness :
    pollingTestState.max_polling_tries ≤
      ([PollResp.accepted, PollResp.accepted, PollResp.accepted] : List PollResp).length ∧
    pollingTestState.max_polling_tries = 3 ∧
    startPolling pollingTestState 7 "pid"
        [PollResp.accepted, PollResp.accepted, PollResp.accepted] =
      some ⟨Except.error (TgtgError.pollingTimeout
          (pollingTestState.max_polling_tries * pollingTestState.polling_wait_time)),
        pollingTestState.max_polling_tries,
        pollingTestState.max_polling_tries * pollingTestState.polling_wait_time⟩ ∧
    startPolling pollingTestState 7 "pid"
        [PollResp.accepted, PollResp.ok "acc" "ref" "uid"] =
      some ⟨Except.ok { pollingTestState with
          access_token := some "acc"
          refresh_token := some "ref"
          user_id := some "uid"
          last_time_token_refreshed := some 7 }, 2,
        pollingTestState.polling_wait_time⟩ :=
  ⟨by decide, rfl,
    start_polling_spec.2.2.1 pollingTestState 7 "pid"
      [PollResp.accepted, PollResp.accepted, PollResp.accepted]
      (by decide) (by decide),
    start_polling_spec.2.2.2 pollingTestState 7 "pid" "acc" "ref" "uid" [] rfl⟩

/-! ## Uncredentialed login branches -/

/-- C5 counterexample: for an email-only session, a 429 answer to the email
submission raises the `TgtgAPIError` kind, and a `TERMS` answer raises the
`TgtgPollingError` kind — neither is the `TgtgLoginError` the claim names. -/
theorem login_not_login_error_counterexample :
    login emailOnlyState 0 env429 =
      some (Except.error TgtgError.apiErrorRateLimited) ∧
    isLoginError TgtgError.apiErrorRateLimited = false ∧
    login emailOnlyState 0 envTerms =
      some (Except.error TgtgError.pollingSignupRequired) ∧
    isLoginError TgtgError.pollingSignupRequired = false :=
  ⟨rfl, rfl, rfl, rfl⟩

/-- C5 (amended): for a valid but uncredentialed session, the email
submission outcome maps as the code does: `TERMS` raises the PollingError
kind (signup required), `WAIT` enters the polling phase, any other OK-body
state raises `TgtgLoginError` (status 200), a non-OK status raises
`TgtgLoginError` — except 429, which raises the rate-limited `TgtgAPIError`. -/
theorem login_uncredentialed_branches (st : TgtgState) (now : Nat)
    (h1 : sessionValid st = true) (h2 : alreadyLogged st = false) :
    (∀ (pid : String) (env : LoginEnv),
        env.authResp = AuthByEmailResp.okState "TERMS" pid →
        login st now env = some (Except.error TgtgError.pollingSignupRequired))
    ∧ (∀ (pid : String) (env : LoginEnv),
        env.authResp = AuthByEmailResp.okState "WAIT" pid →
        login st now env = (startPolling st now pid env.pollResps).map
          (fun o => o.result))
    ∧ (∀ (s : String) (pid : String) (env : LoginEnv),
        s ≠ "TERMS" → s ≠ "WAIT" →
        env.authResp = AuthByEmailResp.okState s pid →
        login st now env = some (Except.error (TgtgError.loginError 200)))
    ∧ (∀ env : LoginEnv, env.authResp = AuthByEmailResp.httpError 429 →
        login st now env = some (Except.error TgtgError.apiErrorRateLimited))
    ∧ (∀ (c : Nat) (env : LoginEnv), c ≠ 429 →
        env.authResp = AuthByEmailResp.httpError c →
        login st now env = some (Except.error (TgtgError.loginError c))) := by
  refine ⟨?_, ?_, ?_, ?_, ?_⟩
  · intro pid env heq
    simp [login, h1, h2, heq]
  · intro pid env heq
    simp [login, h1, h2, heq]
  · intro s pid env hs1 hs2 heq
    simp [login, h1, h2, heq, hs1, hs2]
  · intro env heq
    simp [login, h1, h2, heq]
  · intro c env hc heq
    simp [login, h1, h2, heq, hc]

/-- Witness for the amended C5 on the email-only session with the concrete
`TERMS` and 429 environments. -/
theorem login_uncredentialed_branches_witness :
    sessionValid emailOnlyState = true ∧
    alreadyLogged emailOnlyState = false ∧
    envTerms.authResp = AuthByEmailResp.okState "TERMS" "pid" ∧
    login emailOnlyState 0 envTerms =
      some (Except.error TgtgError.pollingSignupRequired) ∧
    login emailOnlyState 0 env429 =
      some (Except.error TgtgError.apiErrorRateLimited) :=
  ⟨rfl, rfl, rfl,
    (login_uncredentialed_branches emailOnlyState 0 rfl rfl).1 "pid" envTerms rfl,
    (login_uncredentialed_branches emailOnlyState 0 rfl rfl).2.2.2.1 env429 rfl⟩

/-! ## Webhook template rendering

The scan of a well-formed template finds exactly its placeholder chunks. -/

lemma isAlnumU_rbrace : isAlnumU '}' = false := by decide

lemma isAlnumU_ne_dollar {c : Char} (h : isAlnumU c = true) : c ≠ '$' := by
  rintro rfl
  simp [isAlnumU] at h

lemma takeWhile_append_all (n : List Char) (hl : ∀ c ∈ n, isAlnumU c)
    (x : Char) (hx : isAlnumU x = false) (t : List Char) :
    (n ++ x :: t).takeWhile isAlnumU = n := by
  induction n with
  | nil => simp [List.takeWhile_cons, hx]
  | cons c cs ih =>
      have hc : isAlnumU c = true := hl c (by simp)
      simp only [List.cons_append, List.takeWhile_cons, hc, if_pos]
      rw [ih (fun d hd => hl d (by simp [hd]))]

lemma dropWhile_append_all (n : List Char) (hl : ∀ c ∈ n, isAlnumU c)
    (x : Char) (hx : isAlnumU x = false) (t : List Char) :
    (n ++ x :: t).dropWhile isAlnumU = x :: t := by
  induction n with
  | nil => simp [List.dropWhile_cons, hx]
  | cons c cs ih =>
      have hc : isAlnumU c = true := hl c (by simp)
      simp only [List.cons_append, List.dropWhile_cons, hc, if_pos]
      exact ih (fun d hd => hl d (by simp [hd]))

lemma tryPh_not_dollar {c : Char} (hc : c ≠ '$') (cs : List Char) :
    tryPh (c :: cs) = none := by
  cases cs with
  | nil => rfl
  | cons b bs =>
      cases bs with
      | nil => rfl
      | cons d ds => simp [tryPh, hc]

lemma phText_append (n t : List Char) :
    phText n ++ t = '$' :: '{' :: '{' :: (n ++ '}' :: '}' :: t) := by
  simp [phText]

lemma tryPh_phText (n : List Char) (hn : alnumName n) (t : List Char) :
    tryPh (phText n ++ t) = some n := by
  rw [phText_append]
  have htw : (n ++ '}' :: '}' :: t).takeWhile isAlnumU = n :=
    takeWhile_append_all n hn.2 '}' isAlnumU_rbrace ('}' :: t)
  have hdw : (n ++ '}' :: '}' :: t).dropWhile isAlnumU = '}' :: '}' :: t :=
    dropWhile_append_all n hn.2 '}' isAlnumU_rbrace ('}' :: t)
  simp [tryPh, htw, hdw, hn.1, List.isPrefixOf]

lemma findNames_cons_not_dollar {c : Char} (hc : c ≠ '$') (cs : List Char) :
    findNames (c :: cs) = findNames cs := by
  simp [findNames, tryPh_not_dollar hc]

lemma findNames_dollarFree_append (u t : List Char) (hu : '$' ∉ u) :
    findNames (u ++ t) = findNames t := by
  induction u with
  | nil => rfl
  | cons c cs ih =>
      have hc : c ≠ '$' := fun h => hu (by simp [h])
      rw [List.cons_append, findNames_cons_not_dollar hc]
      exact ih (fun h => hu (by simp [h]))

lemma dollar_not_mem_phText_tail (n : List Char) (hn : alnumName n) :
    '$' ∉ '{' :: '{' :: (n ++ ['}', '}']) := by
  intro h
  rcases List.mem_cons.mp h with h1 | h
  · exact absurd h1 (by decide)
  rcases List.mem_cons.mp h with h1 | h
  · exact absurd h1 (by decide)
  rcases List.mem_append.mp h with h1 | h1
  · exact isAlnumU_ne_dollar (hn.2 _ h1) rfl
  · rcases List.mem_cons.mp h1 with h2 | h2
    · exact absurd h2 (by decide)
    · rcases List.mem_cons.mp h2 with h3 | h3
      · exact absurd h3 (by decide)
      · cases h3

lemma findNames_cons_eq (c : Char) (cs : List Char) :
    findNames (c :: cs) =
      match tryPh (c :: cs) with
      | some n => n :: findNames cs
      | none => findNames cs := rfl

lemma findNames_phText_append (n : List Char) (hn : alnumName n) (t : List Char) :
    findNames (phText n ++ t) = n :: findNames t := by
  have h1 : phText n ++ t = '$' :: (('{' :: '{' :: (n ++ ['}', '}'])) ++ t) := by
    simp [phText]
  have h2 := tryPh_phText n hn t
  rw [h1] at h2
  rw [h1, findNames_cons_eq, h2]
  rw [findNames_dollarFree_append _ _ (dollar_not_mem_phText_tail n hn)]

/-- The regex scan of a well-formed template yields exactly the placeholder
names of its chunks, in order. -/
lemma findNames_flatten (chunks : List Chunk) (h : wfChunks chunks) :
    findNames (flattenChunks chunks) = phNames chunks := by
  induction chunks with
  | nil => rfl
  | cons c rest ih =>
      have hrest : wfChunks rest := fun x hx => h x (by simp [hx])
      cases c with
      | lit s =>
          have hs : '$' ∉ s := h (Chunk.lit s) (by simp)
          rw [flattenChunks, findNames_dollarFree_append _ _ hs, ih hrest, phNames]
      | ph n =>
          have hn : alnumName n := h (Chunk.ph n) (by simp)
          rw [flattenChunks, findNames_phText_append n hn, ih hrest, phNames]

/-! The replace step of the rendering loop, on well-formed templates. -/

lemma replaceAllGo_nil (p v : List Char) (fuel : Nat) :
    replaceAllGo p v fuel [] = [] := by
  cases fuel <;> rfl

lemma replaceAllGo_succ (p v : List Char) (fuel : Nat) (c : Char) (cs : List Char) :
    replaceAllGo p v (fuel + 1) (c :: cs) =
      if p ≠ [] ∧ p.isPrefixOf (c :: cs) then
        v ++ replaceAllGo p v fuel ((c :: cs).drop p.length)
      else
        c :: replaceAllGo p v fuel cs := rfl

/-- With enough fuel, `replaceAllGo` does not depend on the exact fuel. -/
lemma replaceAllGo_fuel (p v : List Char) (hp : p ≠ []) :
    ∀ (fuel : Nat) (s : List Char), s.length ≤ fuel →
      replaceAllGo p v fuel s = replaceAllGo p v s.length s := by
  intro fuel
  induction fuel using Nat.strong_induction_on with
  | _ fuel ih =>
      intro s hs
      cases s with
      | nil => rw [replaceAllGo_nil, replaceAllGo_nil]
      | cons c cs =>
          cases fuel with
          | zero => simp at hs
          | succ f =>
              have hcs : cs.length ≤ f := by simpa using hs
              have hplen : 1 ≤ p.length := by
                cases p with
                | nil => exact absurd rfl hp
                | cons x xs => simp
              have hdlen : ((c :: cs).drop p.length).length ≤ cs.length := by
                rw [List.length_drop]
                simp only [List.length_cons]
                omega
              rw [List.length_cons, replaceAllGo_succ, replaceAllGo_succ]
              by_cases hcond : p ≠ [] ∧ p.isPrefixOf (c :: cs)
              · rw [if_pos hcond, if_pos hcond]
                have e1 := ih f (Nat.lt_succ_self f) ((c :: cs).drop p.length)
                  (le_trans hdlen hcs)
                have e2 := ih cs.length (Nat.lt_succ_of_le hcs)
                  ((c :: cs).drop p.length) hdlen
                rw [e1, e2]
              · rw [if_neg hcond, if_neg hcond]
                rw [ih f (Nat.lt_succ_self f) cs hcs,
                  ih cs.length (Nat.lt_succ_of_le hcs) cs (le_refl _)]

lemma replaceAll_nil (p v : List Char) : replaceAll p v [] = [] := rfl

lemma replaceAll_cons_neg (p v : List Char) (c : Char) (cs : List Char)
    (h : ¬ (p.isPrefixOf (c :: cs) = true)) :
    replaceAll p v (c :: cs) = c :: replaceAll p v cs := by
  unfold replaceAll
  rw [List.length_cons, replaceAllGo_succ, if_neg (fun hc => h hc.2)]

lemma replaceAll_cons_pos (p v : List Char) (hp : p ≠ []) (c : Char)
    (cs : List Char) (h : p.isPrefixOf (c :: cs) = true) :
    replaceAll p v (c :: cs) = v ++ replaceAll p v ((c :: cs).drop p.length) := by
  unfold replaceAll
  rw [List.length_cons, replaceAllGo_succ, if_pos ⟨hp, h⟩]
  congr 1
  apply replaceAllGo_fuel p v hp
  rw [List.length_drop]
  have hplen : 1 ≤ p.length := by
    cases p with
    | nil => exact absurd rfl hp
    | cons x xs => simp
  simp only [List.length_cons]
  omega

lemma phText_ne_nil (n : List Char) : phText n ≠ [] := by simp [phText]

lemma replaceAll_dollarFree_append (n v u t : List Char) (hu : '$' ∉ u) :
    replaceAll (phText n) v (u ++ t) = u ++ replaceAll (phText n) v t := by
  induction u with
  | nil => simp
  | cons c cs ih =>
      have hc : c ≠ '$' := fun h => hu (by simp [h])
      have hnp : ¬ ((phText n).isPrefixOf (c :: (cs ++ t)) = true) := by
        intro hpre
        rw [ List.isPrefixOf_iff_prefix] at hpre
        have hhead := (List.cons_prefix_cons.mp (by simpa [phText] using hpre)).1
        exact hc hhead.symm
      rw [List.cons_append, replaceAll_cons_neg _ _ _ _ hnp,
        ih (fun h => hu (by simp [h])), List.cons_append]

lemma alnum_names_prefix_eq :
    ∀ (n m : List Char), (∀ c ∈ n, isAlnumU c) → (∀ c ∈ m, isAlnumU c) →
      ∀ t : List Char, (n ++ ['}', '}']) <+: (m ++ '}' :: '}' :: t) → n = m := by
  intro n
  induction n with
  | nil =>
      intro m _ hm t hpre
      cases m with
      | nil => rfl
      | cons d ds =>
          have h1 := (List.cons_prefix_cons.mp (by simpa using hpre)).1
          have hd : isAlnumU d := hm d (by simp)
          rw [← h1] at hd
          exact absurd hd (by decide)
  | cons c cs ih =>
      intro m hn hm t hpre
      cases m with
      | nil =>
          have h1 := (List.cons_prefix_cons.mp (by simpa using hpre)).1
          have hcAl : isAlnumU c := hn c (by simp)
          rw [h1] at hcAl
          exact absurd hcAl (by decide)
      | cons d ds =>
          have hcd := List.cons_prefix_cons.mp (by simpa using hpre)
          have htl := ih ds (fun x hx => hn x (by simp [hx]))
            (fun x hx => hm x (by simp [hx])) t (by simpa using hcd.2)
          rw [hcd.1, htl]

lemma phText_prefix_eq (n m : List Char) (hn : alnumName n) (hm : alnumName m)
    (t : List Char) (h : (phText n).isPrefixOf (phText m ++ t) = true) : n = m := by
  rw [ List.isPrefixOf_iff_prefix, phText_append] at h
  exact alnum_names_prefix_eq n m hn.2 hm.2 t (by simpa [phText] using h)

lemma replaceAll_phText_eq (n v t : List Char) :
    replaceAll (phText n) v (phText n ++ t) = v ++ replaceAll (phText n) v t := by
  have hpre : (phText n).isPrefixOf (phText n ++ t) = true :=
    List.isPrefixOf_iff_prefix.mpr (List.prefix_append _ _)
  rw [phText_append] at hpre ⊢
  rw [replaceAll_cons_pos _ _ (phText_ne_nil n) _ _ hpre]
  rw [← phText_append, List.drop_left]

lemma replaceAll_phText_ne (n m v t : List Char) (hn : alnumName n)
    (hm : alnumName m) (hne : n ≠ m) :
    replaceAll (phText n) v (phText m ++ t) =
      phText m ++ replaceAll (phText n) v t := by
  have hnp : ¬ ((phText n).isPrefixOf (phText m ++ t) = true) :=
    fun h => hne (phText_prefix_eq n m hn hm t h)
  have hshape : phText m ++ t = '$' :: (('{' :: '{' :: (m ++ ['}', '}'])) ++ t) := by
    simp [phText]
  rw [hshape] at hnp ⊢
  rw [replaceAll_cons_neg _ _ _ _ hnp]
  rw [replaceAll_dollarFree_append n v _ t (dollar_not_mem_phText_tail m hm)]
  simp [phText]

/-! String-level rendering equals chunk-level substitution. -/

lemma itemHasattr_mem (n : List Char) : itemHasattr n = true ↔ n ∈ ATTRSChars := by
  simp [itemHasattr, List.contains]

lemma wfChunks_cons {c : Chunk} {rest : List Chunk} (h : wfChunks (c :: rest)) :
    chunkOK c ∧ wfChunks rest :=
  ⟨h c (by simp), fun x hx => h x (by simp [hx])⟩

lemma flatten_replacePh (n v : List Char) (hn : alnumName n) :
    ∀ (chunks : List Chunk), wfChunks chunks →
      replaceAll (phText n) v (flattenChunks chunks) =
        flattenChunks (replacePhChunks n v chunks) := by
  intro chunks
  induction chunks with
  | nil =>
      intro _
      rw [flattenChunks, replaceAll_nil]
      rfl
  | cons c rest ih =>
      intro h
      obtain ⟨hc, hrest⟩ := wfChunks_cons h
      cases c with
      | lit s =>
          rw [flattenChunks, replaceAll_dollarFree_append n v s _ hc, ih hrest]
          rfl
      | ph m =>
          by_cases hnm : m = n
          · subst hnm
            rw [flattenChunks, replaceAll_phText_eq, ih hrest]
            simp [replacePhChunks, flattenChunks]
          · rw [flattenChunks,
              replaceAll_phText_ne n m v _ hn hc (fun hh => hnm hh.symm), ih hrest]
            simp [replacePhChunks, flattenChunks, hnm]

lemma wfChunks_replacePh (n v : List Char) (hv : '$' ∉ v) (chunks : List Chunk)
    (h : wfChunks chunks) : wfChunks (replacePhChunks n v chunks) := by
  intro c hc
  obtain ⟨a, ha, rfl⟩ := List.mem_map.mp hc
  cases a with
  | lit s => exact h (Chunk.lit s) ha
  | ph m =>
      by_cases hnm : m = n
      · simpa [hnm, chunkOK] using hv
      · simpa [hnm, chunkOK] using h (Chunk.ph m) ha

lemma renderFold_flatten (item : Item)
    (hv : ∀ n, itemHasattr n = true → '$' ∉ attrValue item n) :
    ∀ (ns : List (List Char)) (chunks : List Chunk), wfChunks chunks →
      (∀ n ∈ ns, alnumName n) →
      ns.foldl (fun acc n =>
          if itemHasattr n then replaceAll (phText n) (attrValue item n) acc else acc)
        (flattenChunks chunks) =
      flattenChunks (ns.foldl (fun cs n =>
          if itemHasattr n then replacePhChunks n (attrValue item n) cs else cs)
        chunks) := by
  intro ns
  induction ns with
  | nil => intro chunks _ _; rfl
  | cons n ns ih =>
      intro chunks hwf hns
      have hn : alnumName n := hns n (by simp)
      have hns2 : ∀ x ∈ ns, alnumName x := fun x hx => hns x (by simp [hx])
      rw [List.foldl_cons, List.foldl_cons]
      by_cases hh : itemHasattr n = true
      · rw [if_pos hh, if_pos hh,
          flatten_replacePh n (attrValue item n) hn chunks hwf]
        exact ih (replacePhChunks n (attrValue item n) chunks)
          (wfChunks_replacePh n _ (hv n hh) chunks hwf) hns2
      · rw [if_neg hh, if_neg hh]
        exact ih chunks hwf hns2

lemma foldl_replacePh_eq_map (item : Item) :
    ∀ (ns : List (List Char)) (chunks : List Chunk),
      ns.foldl (fun cs n =>
          if itemHasattr n then replacePhChunks n (attrValue item n) cs else cs)
        chunks =
      chunks.map (fun c =>
        match c with
        | Chunk.ph m =>
            if m ∈ ns ∧ itemHasattr m then Chunk.lit (attrValue item m) else c
        | Chunk.lit _ => c) := by
  intro ns
  induction ns with
  | nil =>
      intro chunks
      rw [List.foldl_nil]
      induction chunks with
      | nil => rfl
      | cons c rest ihc =>
          rw [List.map_cons, ← ihc]
          cases c with
          | lit s => rfl
          | ph m => simp
  | cons n ns ih =>
      intro chunks
      rw [List.foldl_cons]
      by_cases hh : itemHasattr n = true
      · rw [if_pos hh, ih, replacePhChunks, List.map_map]
        apply List.map_congr_left
        intro a _
        cases a with
        | lit s => rfl
        | ph m =>
            by_cases hnm : m = n
            · subst hnm
              simp [hh]
            · by_cases hmem : m ∈ ns <;> simp [hnm, hmem, Function.comp]
      · rw [if_neg hh, ih]
        apply List.map_congr_left
        intro a _
        cases a with
        | lit s => rfl
        | ph m =>
            by_cases hnm : m = n
            · subst hnm
              simp [hh]
            · by_cases hmem : m ∈ ns <;> simp [hnm, hmem]

lemma mem_phNames {m : List Char} :
    ∀ {chunks : List Chunk}, Chunk.ph m ∈ chunks → m ∈ phNames chunks := by
  intro chunks
  induction chunks with
  | nil => intro h; cases h
  | cons c rest ih =>
      intro h
      rcases List.mem_cons.mp h with h1 | h1
      · rw [← h1, phNames]
        simp
      · cases c with
        | lit s => rw [phNames]; exact ih h1
        | ph k => rw [phNames]; exact List.mem_cons_of_mem _ (ih h1)

lemma phNames_sub :
    ∀ (chunks : List Chunk) (n : List Char), n ∈ phNames chunks →
      Chunk.ph n ∈ chunks := by
  intro chunks
  induction chunks with
  | nil => intro n h; cases h
  | cons c rest ih =>
      intro n h
      cases c with
      | lit s =>
          rw [phNames] at h
          exact List.mem_cons_of_mem _ (ih n h)
      | ph k =>
          rw [phNames] at h
          rcases List.mem_cons.mp h with h1 | h1
          · rw [h1]; simp
          · exact List.mem_cons_of_mem _ (ih n h1)

lemma phNames_alnum (chunks : List Chunk) (h : wfChunks chunks) :
    ∀ n ∈ phNames chunks, alnumName n :=
  fun n hn => h (Chunk.ph n) (phNames_sub chunks n hn)

/-- On a well-formed template, the `_send` substitution loop performs the
simultaneous substitution of every known placeholder by the item's literal
attribute value, leaving unknown placeholders verbatim. -/
lemma renderChars_flatten (chunks : List Chunk) (item : Item)
    (hwf : wfChunks chunks) (hval : valuesDollarFree item) :
    renderChars (flattenChunks chunks) item = flattenChunks (substChunks chunks item) := by
  have hv : ∀ n, itemHasattr n = true → '$' ∉ attrValue item n :=
    fun n hn => hval n ((itemHasattr_mem n).mp hn)
  rw [renderChars, findNames_flatten chunks hwf,
    renderFold_flatten item hv (phNames chunks) chunks hwf (phNames_alnum chunks hwf),
    foldl_replacePh_eq_map item (phNames chunks) chunks]
  rw [substChunks]
  congr 1
  apply List.map_congr_left
  intro a ha
  cases a with
  | lit s => rfl
  | ph m =>
      have hmem : m ∈ phNames chunks := mem_phNames ha
      by_cases hh : itemHasattr m = true <;> simp [hmem, hh]

/-- C8: rendering substitutes each `display_name` / `items_available` (and
any other known) placeholder of a well-formed template by the item's
literal attribute value; and any template placeholder whose name is not in
`Item.ATTRS` makes `WebHook._init` raise `WebHookConfigurationError`, so it
never reaches `_send` — where rendering is total and leaves unknown names
verbatim rather than erroring. -/
theorem webhook_template_rendering_spec :
    (∀ (chunks : List Chunk) (item : Item), wfChunks chunks →
        valuesDollarFree item →
        renderChars (flattenChunks chunks) item =
          flattenChunks (substChunks chunks item))
    ∧ (∀ (cfg : WebHookConfig) (n : List Char),
        (n ∈ findNames cfg.body.data ∨ n ∈ findNames cfg.url.data) →
        ATTRSChars.contains n = false →
        webhookInit cfg = Except.error ()) := by
  constructor
  · exact fun chunks item hwf hval => renderChars_flatten chunks item hwf hval
  · intro cfg n hmem hnot
    unfold webhookInit
    by_cases h1 : cfg.method = "" ∨ cfg.url = ""
    · rw [if_pos h1]
    · rw [if_neg h1]
      rcases hmem with hb | hu
      · have hall : (findNames cfg.body.data).all
            (fun x => ATTRSChars.contains x) = false := by
          cases hx : (findNames cfg.body.data).all (fun x => ATTRSChars.contains x) with
          | false => rfl
          | true =>
              have hcontr := List.all_eq_true.mp hx n hb
              rw [hnot] at hcontr
              cases hcontr
        rw [hall]
        rfl
      · cases hx : (findNames cfg.body.data).all (fun x => ATTRSChars.contains x) with
        | false => rfl
        | true =>
            have hall : (findNames cfg.url.data).all
                (fun x => ATTRSChars.contains x) = false := by
              cases hy : (findNames cfg.url.data).all (fun x => ATTRSChars.contains x) with
              | false => rfl
              | true =>
                  have hcontr := List.all_eq_true.mp hy n hu
                  rw [hnot] at hcontr
                  cases hcontr
            rw [hall]
            rfl

/-- Witness for C8: the sample template renders the two item placeholders
with the literal values and keeps the unknown one; a body holding the
unknown placeholder makes `_init` fail. -/
theorem webhook_template_rendering_spec_witness :
    wfChunks sampleChunks ∧ valuesDollarFree sampleItem ∧
    renderChars (flattenChunks sampleChunks) sampleItem =
      flattenChunks (substChunks sampleChunks sampleItem) ∧
    "bogus".data ∈ findNames sampleBadCfg.body.data ∧
    ATTRSChars.contains "bogus".data = false ∧
    webhookInit sampleBadCfg = Except.error () :=
  ⟨by decide, by decide,
    webhook_template_rendering_spec.1 sampleChunks sampleItem (by decide) (by decide),
    by decide, by decide,
    webhook_template_rendering_spec.2 sampleBadCfg
      "bogus".data (Or.inl (by decide)) (by decide)⟩

end Tgtg
